import Mathlib

/-!
Verification of the Global-Macro-Dashboard repository against its
specification.

The development shallowly embeds the recurring core of the repository:

* the `DataManager` background refresh cache of `src/app.py`
  (near-duplicate in `src/app1.py`): per-dataset fetchers that catch
  per-item errors, a cycle driver `update_all_data` that rebuilds the
  whole cache dict and swaps it in under a lock, a refresh loop driven
  by a stop event, and the construction of the initial cache;
* the resilient retry/fallback fetch routine described by the
  specification (no such routine exists under `src/`, so it is modelled
  from the specification text and marked as such);
* `robust_normalize` of `src/sp500_nasdaq_comparison.py`;
* the performance-metrics guard of `src/sp500_nasdaq_comparison1.py`.

Python dicts are modelled as association lists, `None` as `Option.none`,
exceptions as `Except`, wall-clock instants as naturals, and numeric
values either generically (a type parameter `V`) or as exact rationals
where arithmetic matters.
-/

/-- One cached dataset value as built by the fetchers of
`src/app.py`: the market/commodities/news fetchers return Python lists
(`fetch_market_data`, lines 127-169), the economic/rates/risk fetchers
return Python dicts keyed by display name (lines 171-293). -/
inductive DVal (V : Type) where
  | list (xs : List V)
  | dict (kvs : List (String × V))
  deriving DecidableEq, Repr

/-- The `DataManager.cache` dict (`src/app.py` lines 115-123): a Python
dict from dataset key to `None` or a fetched value, modelled as an
association list. -/
abbrev Cache (V : Type) := List (String × Option (DVal V))

/-- The initial cache of `src/app.py` lines 115-123: seven keys, every
value `None`. -/
def init_cache {V : Type} : Cache V :=
  [("market", none), ("economic", none), ("rates", none),
   ("commodities", none), ("risk", none), ("sentiment", none), ("news", none)]

/-- The initial cache of `src/app1.py` lines 71-78: six keys (no
`"sentiment"`), every value `None`. -/
def init_cache_app1 {V : Type} : Cache V :=
  [("market", none), ("economic", none), ("rates", none),
   ("commodities", none), ("risk", none), ("news", none)]

/-- The external outcomes one refresh cycle is exposed to.  Each entry of
`market`/`commodities` is the outcome of the guarded `yf.Ticker(...).history`
call for one instrument (`src/app.py` lines 143-167 and 239-257); each
entry of `economic`/`rates` is the outcome of the guarded
`fred.get_series` call for one series (lines 182-193 and 207-222);
`riskVix` is the outcome of the unguarded yfinance calls inside
`fetch_risk_sentiment` (lines 272 and 278); `gpr` and `sent` are the
simulated random values of lines 282 and 289; `news` is the static list
of line 300-322 (it cannot fail). -/
structure CycleInput (V : Type) where
  market : List (Except String V)
  economic : List (String × Except String V)
  rates : List (String × Except String V)
  commodities : List (Except String V)
  riskVix : Except String V
  gpr : V
  sent : V
  news : List V

/-- The per-item `try/except` loop shared by `fetch_market_data` and
`fetch_commodities`: a failed item is reported with `st.error` and
skipped, successful items are appended in order. -/
def fetch_loop_list {V : Type} (outs : List (Except String V)) : List V :=
  outs.filterMap fun o =>
    match o with
    | Except.ok v => some v
    | Except.error _ => none

/-- The per-item `try/except` loop shared by `fetch_economic_indicators`
and `fetch_central_bank_rates`: a failed series is reported with
`st.error` and skipped, successful ones are stored under their name. -/
def fetch_loop_dict {V : Type} (outs : List (String × Except String V)) :
    List (String × V) :=
  outs.filterMap fun p =>
    match p.2 with
    | Except.ok v => some (p.1, v)
    | Except.error _ => none

/-- Embeds `DataManager.fetch_market_data` (`src/app.py` lines 127-169). -/
def fetch_market_data {V : Type} (inp : CycleInput V) : List V :=
  fetch_loop_list inp.market

/-- Embeds `DataManager.fetch_economic_indicators` (`src/app.py` lines 171-195). -/
def fetch_economic_indicators {V : Type} (inp : CycleInput V) : List (String × V) :=
  fetch_loop_dict inp.economic

/-- Embeds `DataManager.fetch_central_bank_rates` (`src/app.py` lines 197-224). -/
def fetch_central_bank_rates {V : Type} (inp : CycleInput V) : List (String × V) :=
  fetch_loop_dict inp.rates

/-- Embeds `DataManager.fetch_commodities` (`src/app.py` lines 226-259). -/
def fetch_commodities {V : Type} (inp : CycleInput V) : List V :=
  fetch_loop_list inp.commodities

/-- Embeds `DataManager.fetch_risk_sentiment` (`src/app.py` lines 261-293).  The
yfinance calls on lines 272 and 278 are NOT wrapped in `try/except`, so
their failure escapes this function as an exception. -/
def fetch_risk_sentiment {V : Type} (inp : CycleInput V) : Except String (DVal V) :=
  match inp.riskVix with
  | Except.error e => Except.error e
  | Except.ok v =>
      Except.ok (DVal.dict [("VIX", v), ("GPR", inp.gpr), ("Sentiment", inp.sent)])

/-- Embeds `DataManager.fetch_news` (`src/app.py` lines 295-322): a static list,
never fails. -/
def fetch_news {V : Type} (inp : CycleInput V) : List V :=
  inp.news

/-- Building `new_data` inside `update_all_data` (`src/app.py` lines
327-334).  The four looped fetchers cannot raise (every item is guarded);
an exception escaping `fetch_risk_sentiment` aborts the construction of
the dict and propagates to the `except` clause of `update_all_data`
before `fetch_news` runs. -/
def run_fetchers {V : Type} (inp : CycleInput V) : Except String (Cache V) :=
  match fetch_risk_sentiment inp with
  | Except.error e => Except.error e
  | Except.ok risk =>
      Except.ok
        [("market", some (DVal.list (fetch_market_data inp))),
         ("economic", some (DVal.dict (fetch_economic_indicators inp))),
         ("rates", some (DVal.dict (fetch_central_bank_rates inp))),
         ("commodities", some (DVal.list (fetch_commodities inp))),
         ("risk", some risk),
         ("news", some (DVal.list (fetch_news inp)))]

/-- The mutable state of a `DataManager`: the cache dict and
`self.last_updated` (a wall-clock instant, modelled as a natural). -/
structure DMState (V : Type) where
  cache : Cache V
  last_updated : Nat
  deriving DecidableEq, Repr

/-- Embeds `DataManager.update_all_data` (`src/app.py` lines 324-341): build
`new_data`; on success take the lock and swap in the whole dict, stamping
`last_updated` with the wall clock read inside the critical section
(`now`); on any exception report with `st.error` and leave the state
untouched. -/
def update_all_data {V : Type} (s : DMState V) (now : Nat) (inp : CycleInput V) :
    DMState V :=
  match run_fetchers inp with
  | Except.ok nd => ⟨nd, now⟩
  | Except.error _ => s

/-- A sequence of refresh cycles (scheduled or manual), each with the
wall-clock instant read at its commit point and its external outcomes.
Commits are serialized by `self.data_lock`, so a run is a list. -/
def run_cycles {V : Type} : DMState V → List (Nat × CycleInput V) → DMState V
  | s, [] => s
  | s, p :: rest => run_cycles (update_all_data s p.1 p.2) rest

/-- The cycles of a run that commit (reach the `with self.data_lock`
block), with the cache dict each one installs. -/
def committed {V : Type} : List (Nat × CycleInput V) → List (Nat × Cache V)
  | [] => []
  | p :: rest =>
      match run_fetchers p.2 with
      | Except.ok nd => (p.1, nd) :: committed rest
      | Except.error _ => committed rest

/-- Last element of a list, as an `Option`. -/
def lastOr {α : Type} : List α → Option α
  | [] => none
  | [a] => some a
  | _ :: b :: t => lastOr (b :: t)

/-- Python dict lookup `cache[k]`: `none` would be a `KeyError`. -/
def cache_lookup {V : Type} (k : String) (c : Cache V) : Option (Option (DVal V)) :=
  (c.find? fun p => p.1 == k).map Prod.snd

theorem lastOr_cons_eq_some {α : Type} :
    ∀ (l : List α) (a : α), ∃ x, lastOr (a :: l) = some x := by
  intro l
  induction l with
  | nil => intro a; exact ⟨a, rfl⟩
  | cons b t ih => intro a; rcases ih b with ⟨x, hx⟩; exact ⟨x, hx⟩

theorem run_cycles_eq_last_committed {V : Type} :
    ∀ (inps : List (Nat × CycleInput V)) (s : DMState V),
      run_cycles s inps =
        (lastOr (committed inps)).elim s (fun q => ⟨q.2, q.1⟩) := by
  intro inps
  induction inps with
  | nil => intro s; rfl
  | cons p rest ih =>
      intro s
      have hstep : run_cycles s (p :: rest) =
          run_cycles (update_all_data s p.1 p.2) rest := rfl
      rw [hstep, ih]
      cases hq : run_fetchers p.2 with
      | ok nd =>
          have hc : committed (p :: rest) = (p.1, nd) :: committed rest := by
            simp [committed, hq]
          have hu : update_all_data s p.1 p.2 = ⟨nd, p.1⟩ := by
            simp [update_all_data, hq]
          rw [hc, hu]
          cases hrest : committed rest with
          | nil => rfl
          | cons q t =>
              rcases lastOr_cons_eq_some t q with ⟨x, hx⟩
              have h2 : lastOr ((p.1, nd) :: q :: t) = lastOr (q :: t) := rfl
              rw [h2, hx]
              rfl
      | error e =>
          have hc : committed (p :: rest) = committed rest := by
            simp [committed, hq]
          have hu : update_all_data s p.1 p.2 = s := by
            simp [update_all_data, hq]
          rw [hc, hu]

/-- The two atomic writes to shared state a committing cycle performs
inside `with self.data_lock` (`src/app.py` lines 336-338): the reference
swap `self.cache = new_data` and the assignment of `self.last_updated`.
Each is a single atomic store; `new_data` is fully constructed before the
first one. -/
inductive WEvent (V : Type) where
  | commit_cache (nd : Cache V)
  | commit_time (t : Nat)

/-- Effect of one atomic write on the shared state. -/
def apply_event {V : Type} : DMState V → WEvent V → DMState V
  | s, WEvent.commit_cache nd => ⟨nd, s.last_updated⟩
  | s, WEvent.commit_time t => ⟨s.cache, t⟩

/-- The writes one cycle performs: a committing cycle issues exactly the
two stores of lines 337-338; an aborted cycle (exception caught on line
340) writes nothing. -/
def cycle_events {V : Type} (p : Nat × CycleInput V) : List (WEvent V) :=
  match run_fetchers p.2 with
  | Except.ok nd => [WEvent.commit_cache nd, WEvent.commit_time p.1]
  | Except.error _ => []

/-- All writes of a run of cycles, in commit order. -/
def schedule_events {V : Type} : List (Nat × CycleInput V) → List (WEvent V)
  | [] => []
  | p :: rest => cycle_events p ++ schedule_events rest

/-- State after a list of atomic writes. -/
def apply_events {V : Type} (s : DMState V) (evs : List (WEvent V)) : DMState V :=
  evs.foldl apply_event s

/-- Every shared state a concurrent reader can observe: the state before
any write and the state after each atomic write.  Readers of
`data_manager.cache` take no lock (`src/app.py` lines 417-697), so they
may run between any two writes. -/
def observable {V : Type} : DMState V → List (WEvent V) → List (DMState V)
  | s, [] => [s]
  | s, e :: es => s :: observable (apply_event s e) es

theorem mem_observable_append {V : Type} :
    ∀ (l1 l2 : List (WEvent V)) (s c : DMState V),
      c ∈ observable s (l1 ++ l2) →
        c ∈ observable s l1 ∨ c ∈ observable (apply_events s l1) l2 := by
  intro l1
  induction l1 with
  | nil =>
      intro l2 s c h
      exact Or.inr h
  | cons e es ih =>
      intro l2 s c h
      have h' : c ∈ s :: observable (apply_event s e) (es ++ l2) := h
      rcases List.mem_cons.mp h' with h1 | h2
      · left
        exact h1 ▸ List.mem_cons_self _ _
      · rcases ih l2 (apply_event s e) c h2 with ha | hb
        · left
          exact List.mem_cons.mpr (Or.inr ha)
        · right
          exact hb

theorem observable_schedule {V : Type} :
    ∀ (inps : List (Nat × CycleInput V)) (s c : DMState V),
      c ∈ observable s (schedule_events inps) →
        c.cache = s.cache ∨ c.cache ∈ (committed inps).map Prod.snd := by
  intro inps
  induction inps with
  | nil =>
      intro s c h
      have h' : c ∈ [s] := h
      left
      rw [List.mem_singleton.mp h']
  | cons p rest ih =>
      intro s c h
      cases hq : run_fetchers p.2 with
      | error e =>
          have hcm : committed (p :: rest) = committed rest := by
            simp [committed, hq]
          have hce : cycle_events p = [] := by
            simp [cycle_events, hq]
          have h0 : c ∈ observable s (cycle_events p ++ schedule_events rest) := h
          rw [hce] at h0
          have h' : c ∈ observable s (schedule_events rest) := h0
          rcases ih s c h' with h1 | h2
          · left; exact h1
          · right; rw [hcm]; exact h2
      | ok nd =>
          have hcm : committed (p :: rest) = (p.1, nd) :: committed rest := by
            simp [committed, hq]
          have hce : cycle_events p =
              [WEvent.commit_cache nd, WEvent.commit_time p.1] := by
            simp [cycle_events, hq]
          have h0 : c ∈ observable s (cycle_events p ++ schedule_events rest) := h
          rw [hce] at h0
          rcases mem_observable_append _ _ _ _ h0 with h1 | h2
          · have h3 : c ∈ [s, ⟨nd, s.last_updated⟩, (⟨nd, p.1⟩ : DMState V)] := h1
            rcases List.mem_cons.mp h3 with rfl | h4
            · left; rfl
            · rcases List.mem_cons.mp h4 with rfl | h5
              · right; rw [hcm]; simp
              · rcases List.mem_cons.mp h5 with rfl | h6
                · right; rw [hcm]; simp
                · exact absurd h6 (List.not_mem_nil c)
          · have hae : apply_events s
                [WEvent.commit_cache nd, WEvent.commit_time p.1] =
                (⟨nd, p.1⟩ : DMState V) := rfl
            rw [hae] at h2
            rcases ih ⟨nd, p.1⟩ c h2 with h1 | h2'
            · right
              rw [hcm]
              have hcc : c.cache = nd := h1
              rw [hcc]
              simp
            · right
              rw [hcm]
              simp only [List.map_cons]
              exact List.mem_cons.mpr (Or.inr h2')

/-- A fully successful cycle: the market fetch returns one index record
and the rates fetch one series.  Item values double as the `Updated`
stamps the code stores inside each record. -/
def inpA : CycleInput Nat :=
  { market := [Except.ok 7], economic := [],
    rates := [("Federal Reserve", Except.ok 5)], commodities := [],
    riskVix := Except.ok 0, gpr := 0, sent := 0, news := [] }

/-- A cycle whose rates items all fail (provider down) while everything
else succeeds: `fetch_central_bank_rates` catches each failure and
returns the empty dict. -/
def inpB : CycleInput Nat :=
  { market := [Except.ok 7], economic := [],
    rates := [("Federal Reserve", Except.error "Unavailable")],
    commodities := [], riskVix := Except.ok 0, gpr := 0, sent := 0, news := [] }

/-- A cycle where the market fetch succeeds but the unguarded VIX call
inside `fetch_risk_sentiment` raises. -/
def inpE : CycleInput Nat :=
  { market := [Except.ok 7], economic := [], rates := [], commodities := [],
    riskVix := Except.error "Unavailable", gpr := 0, sent := 0, news := [] }

/-- Freshly constructed manager state (`src/app.py` lines 113-125) with
construction clock 0. -/
def s0 : DMState Nat := ⟨init_cache, 0⟩

/-- The cache dict the cycle `inpA` installs. -/
def ndA : Cache Nat :=
  [("market", some (DVal.list [7])),
   ("economic", some (DVal.dict [])),
   ("rates", some (DVal.dict [("Federal Reserve", 5)])),
   ("commodities", some (DVal.list [])),
   ("risk", some (DVal.dict [("VIX", 0), ("GPR", 0), ("Sentiment", 0)])),
   ("news", some (DVal.list []))]

/-- Claim C1, counterexample: after a cycle in which every rates item
fails, the previously good rates value is overwritten with the empty
dict, not preserved.  Cycle 1 (`inpA`) stores the Federal Reserve series;
cycle 2 (`inpB`) fails every rates item yet commits, and the cache then
holds `{}` for `"rates"` instead of the last successful value. -/
theorem c1_counterexample :
    cache_lookup "rates" (run_cycles s0 [(1, inpA)]).cache
      = some (some (DVal.dict [("Federal Reserve", 5)])) ∧
    cache_lookup "rates" (run_cycles s0 [(1, inpA), (2, inpB)]).cache
      = some (some (DVal.dict [])) ∧
    some (some (DVal.dict ([] : List (String × Nat))))
      ≠ some (some (DVal.dict [("Federal Reserve", 5)])) := by
  refine ⟨by decide, by decide, by decide⟩

/-- Claim C1, amended: after any sequence of cycles, the whole manager
state equals the state installed by the last cycle that committed
(completed `new_data` without an escaping exception) — each key holds
that cycle's fetcher output even when the fetcher caught failures for
every item and returned an empty collection; only when no cycle commits
does the prior state (values and timestamp) survive. -/
theorem c1_cache_after_cycles {V : Type} (inps : List (Nat × CycleInput V))
    (s : DMState V) :
    run_cycles s inps =
      (lastOr (committed inps)).elim s (fun q => ⟨q.2, q.1⟩) :=
  run_cycles_eq_last_committed inps s

/-- Claim C2 (confirmed): readers never observe a partially updated
dataset value.  Writers mutate shared state only by the two atomic
stores inside the lock, each installing a fully constructed dict, so
every state a reader can observe carries either the initial cache or the
complete cache dict committed by one cycle — for every key, the complete
old value or the complete new value, never a mix of sub-fields. -/
theorem c2_reader_sees_committed_cache {V : Type}
    (inps : List (Nat × CycleInput V)) (s c : DMState V)
    (hc : c ∈ observable s (schedule_events inps)) :
    c.cache = s.cache ∨ c.cache ∈ (committed inps).map Prod.snd :=
  observable_schedule inps s c hc

/-- Claim C2, witness: the state a reader sees between the two atomic
stores of the cycle `inpA` carries exactly that cycle's complete cache. -/
theorem c2_witness :
    (⟨ndA, 0⟩ : DMState Nat).cache = s0.cache ∨
    (⟨ndA, 0⟩ : DMState Nat).cache ∈ (committed [(1, inpA)]).map Prod.snd :=
  c2_reader_sees_committed_cache [(1, inpA)] s0 ⟨ndA, 0⟩ (by decide)

/-- Claim C4, counterexample: a failure of the risk dataset prevents the
remaining datasets from being applied.  In the cycle `inpE` the market
fetch succeeds, but the unguarded VIX call raises; the exception is
caught only at cycle level, so nothing is applied: the market key is
still `None` after the cycle. -/
theorem c4_counterexample :
    fetch_market_data inpE = [7] ∧
    update_all_data s0 1 inpE = s0 ∧
    cache_lookup "market" (update_all_data s0 1 inpE).cache = some none := by
  refine ⟨by decide, by decide, by decide⟩

/-- Claim C4, amended: errors are isolated per ITEM inside the
market/economic/rates/commodities fetchers (a failed item is skipped and
all other items survive), and no fetch error escapes `update_all_data`
as an exception; but an error escaping `fetch_risk_sentiment` aborts the
whole cycle — news is never fetched and no dataset result (even the
already fetched ones) is applied — while a cycle whose risk fetch
succeeds always commits all six keys. -/
theorem c4_error_isolation {V : Type} :
    (∀ (xs ys : List (Except String V)) (e : String),
        fetch_loop_list (xs ++ Except.error e :: ys) =
          fetch_loop_list (xs ++ ys)) ∧
    (∀ (xs ys : List (String × Except String V)) (k e : String),
        fetch_loop_dict (xs ++ (k, Except.error e) :: ys) =
          fetch_loop_dict (xs ++ ys)) ∧
    (∀ (s : DMState V) (now : Nat) (inp : CycleInput V) (e : String),
        inp.riskVix = Except.error e → update_all_data s now inp = s) ∧
    (∀ (s : DMState V) (now : Nat) (inp : CycleInput V) (v : V),
        inp.riskVix = Except.ok v →
          update_all_data s now inp =
            ⟨[("market", some (DVal.list (fetch_market_data inp))),
              ("economic", some (DVal.dict (fetch_economic_indicators inp))),
              ("rates", some (DVal.dict (fetch_central_bank_rates inp))),
              ("commodities", some (DVal.list (fetch_commodities inp))),
              ("risk", some (DVal.dict
                  [("VIX", v), ("GPR", inp.gpr), ("Sentiment", inp.sent)])),
              ("news", some (DVal.list (fetch_news inp)))], now⟩) := by
  refine ⟨?_, ?_, ?_, ?_⟩
  · intro xs ys e
    simp [fetch_loop_list, List.filterMap_append]
  · intro xs ys k e
    simp [fetch_loop_dict, List.filterMap_append]
  · intro s now inp e he
    simp [update_all_data, run_fetchers, fetch_risk_sentiment, he]
  · intro s now inp v hv
    simp [update_all_data, run_fetchers, fetch_risk_sentiment, hv]

/-- Claim C4, witness: item-level isolation and cycle-level abort at
concrete inputs. -/
theorem c4_witness :
    fetch_loop_list ([Except.ok 1] ++ Except.error "Unavailable" :: [Except.ok 2])
      = fetch_loop_list ([Except.ok 1] ++ [Except.ok 2]) ∧
    update_all_data s0 1 inpE = s0 :=
  ⟨(@c4_error_isolation Nat).1 [Except.ok 1] [Except.ok 2] "Unavailable",
   (@c4_error_isolation Nat).2.2.1 s0 1 inpE "Unavailable" rfl⟩

/-- Manager state holding a rates record whose stored `updated` stamp is
5, with `last_updated` 5. -/
def s5 : DMState Nat :=
  ⟨[("market", none), ("economic", none),
    ("rates", some (DVal.dict [("Federal Reserve", 5)])),
    ("commodities", none), ("risk", none), ("sentiment", none),
    ("news", none)], 5⟩

/-- A committing cycle delivering a rates record observed at stamp 3 —
older than the stored stamp 5 (reordered/duplicate delivery). -/
def inpOld : CycleInput Nat :=
  { market := [], economic := [],
    rates := [("Federal Reserve", Except.ok 3)], commodities := [],
    riskVix := Except.ok 0, gpr := 0, sent := 0, news := [] }

/-- The cache dict the stale cycle `inpOld` installs. -/
def ndOld : Cache Nat :=
  [("market", some (DVal.list [])),
   ("economic", some (DVal.dict [])),
   ("rates", some (DVal.dict [("Federal Reserve", 3)])),
   ("commodities", some (DVal.list [])),
   ("risk", some (DVal.dict [("VIX", 0), ("GPR", 0), ("Sentiment", 0)])),
   ("news", some (DVal.list []))]

/-- Claim C5, counterexample: a delivery observed at stamp 3, older than
the stored stamp 5, is NOT a no-op — the stored rates value is replaced
by the older record.  There is no monotonic-per-key guard anywhere in
`update_all_data`. -/
theorem c5_counterexample :
    (3 : Nat) < 5 ∧
    cache_lookup "rates" s5.cache
      = some (some (DVal.dict [("Federal Reserve", 5)])) ∧
    cache_lookup "rates" (update_all_data s5 10 inpOld).cache
      = some (some (DVal.dict [("Federal Reserve", 3)])) := by
  refine ⟨by decide, by decide, by decide⟩

/-- Claim C5, amended: the code applies a committing cycle
unconditionally — the whole cache is replaced by the new dict and
`last_updated` set to the commit clock, with no comparison of the
incoming observation stamps against the stored ones, so stale or
reordered deliveries do overwrite newer stored values. -/
theorem c5_replace_unconditional {V : Type} (s : DMState V) (now : Nat)
    (inp : CycleInput V) (nd : Cache V)
    (h : run_fetchers inp = Except.ok nd) :
    update_all_data s now inp = ⟨nd, now⟩ := by
  simp [update_all_data, h]

/-- Claim C5, witness: the stale delivery `inpOld` replaces the state
`s5` wholesale. -/
theorem c5_witness : update_all_data s5 10 inpOld = ⟨ndOld, 10⟩ :=
  c5_replace_unconditional s5 10 inpOld ndOld rfl

/-- The sequence of manager states a run passes through, one per cycle
boundary (scheduled cycles and manual refreshes, serialized by the
commit lock in commit order). -/
def run_states {V : Type} : DMState V → List (Nat × CycleInput V) → List (DMState V)
  | s, [] => [s]
  | s, p :: rest => s :: run_states (update_all_data s p.1 p.2) rest

theorem run_states_shape {V : Type} (rest : List (Nat × CycleInput V))
    (s : DMState V) : ∃ t, run_states s rest = s :: t := by
  cases rest with
  | nil => exact ⟨[], rfl⟩
  | cons p r => exact ⟨_, rfl⟩

theorem chain_le_weaken {a b : Nat} {l : List Nat} (hab : a ≤ b)
    (h : List.Chain' (· ≤ ·) (b :: l)) : List.Chain' (· ≤ ·) (a :: l) := by
  cases l with
  | nil => exact List.chain'_singleton a
  | cons c t =>
      rw [List.chain'_cons] at h ⊢
      exact ⟨le_trans hab h.1, h.2⟩

theorem run_states_chain {V : Type} :
    ∀ (inps : List (Nat × CycleInput V)) (s : DMState V),
      List.Chain' (· ≤ ·) (s.last_updated :: inps.map Prod.fst) →
      List.Chain' (· ≤ ·) ((run_states s inps).map DMState.last_updated) := by
  intro inps
  induction inps with
  | nil =>
      intro s h
      exact List.chain'_singleton s.last_updated
  | cons p rest ih =>
      intro s h
      have h' : List.Chain' (· ≤ ·)
          (s.last_updated :: p.1 :: rest.map Prod.fst) := h
      rw [List.chain'_cons] at h'
      obtain ⟨h1, h2⟩ := h'
      cases hq : run_fetchers p.2 with
      | ok nd =>
          have hu : update_all_data s p.1 p.2 = ⟨nd, p.1⟩ := by
            simp [update_all_data, hq]
          have hch := ih (⟨nd, p.1⟩ : DMState V) h2
          rcases run_states_shape rest (⟨nd, p.1⟩ : DMState V) with ⟨t, ht⟩
          have hg : run_states s (p :: rest) =
              s :: run_states (⟨nd, p.1⟩ : DMState V) rest := by
            show s :: run_states (update_all_data s p.1 p.2) rest = _
            rw [hu]
          rw [hg, ht]
          rw [ht] at hch
          simp only [List.map_cons] at hch ⊢
          rw [List.chain'_cons]
          exact ⟨h1, hch⟩
      | error e =>
          have hu : update_all_data s p.1 p.2 = s := by
            simp [update_all_data, hq]
          have hch := ih s (chain_le_weaken h1 h2)
          rcases run_states_shape rest s with ⟨t, ht⟩
          have hg : run_states s (p :: rest) = s :: run_states s rest := by
            show s :: run_states (update_all_data s p.1 p.2) rest = _
            rw [hu]
          rw [hg, ht]
          rw [ht] at hch
          simp only [List.map_cons] at hch ⊢
          rw [List.chain'_cons]
          exact ⟨le_refl _, hch⟩

/-- Claim C6 (confirmed): `last_updated` only advances.  Commits are
serialized by the lock and each stamps `last_updated` with the wall
clock read inside the critical section (`src/app.py` line 338), so along
any run whose commit-clock readings are nondecreasing (a wall clock),
every later observed `last_updated` is greater than or equal to every
earlier one; and a cycle that fails (escaping exception, caught on line
340) leaves the whole state — `last_updated` included — unchanged. -/
theorem c6_last_updated_monotone {V : Type}
    (inps : List (Nat × CycleInput V)) (s : DMState V)
    (h : List.Chain' (· ≤ ·) (s.last_updated :: inps.map Prod.fst)) :
    List.Pairwise (· ≤ ·) ((run_states s inps).map DMState.last_updated) ∧
    ∀ (now : Nat) (inp : CycleInput V) (e : String),
      run_fetchers inp = Except.error e → update_all_data s now inp = s := by
  constructor
  · exact List.chain'_iff_pairwise.mp (run_states_chain inps s h)
  · intro now inp e he
    simp [update_all_data, he]

/-- Claim C6, witness: along the concrete run `inpA` then the failing
cycle `inpE`, the observed `last_updated` values are nondecreasing, and
the failing cycle leaves the state unchanged. -/
theorem c6_witness :
    List.Pairwise (· ≤ ·)
      ((run_states s0 [(1, inpA), (2, inpE)]).map DMState.last_updated) ∧
    update_all_data s0 7 inpE = s0 :=
  ⟨(c6_last_updated_monotone [(1, inpA), (2, inpE)] s0 (by
      show List.Chain' (· ≤ ·) [0, 1, 2]
      exact List.chain'_cons.mpr
        ⟨by omega, List.chain'_cons.mpr
          ⟨by omega, List.chain'_singleton 2⟩⟩)).1,
   (c6_last_updated_monotone [(1, inpA), (2, inpE)] s0 (by
      show List.Chain' (· ≤ ·) [0, 1, 2]
      exact List.chain'_cons.mpr
        ⟨by omega, List.chain'_cons.mpr
          ⟨by omega, List.chain'_singleton 2⟩⟩)).2
     7 inpE "Unavailable" rfl⟩

/-- Program counter of the refresh loop `update_loop` (`src/app.py`
lines 345-348): test `self.stop_event.is_set()`, run
`self.update_all_data()`, then `time.sleep(REFRESH_INTERVAL)` — a plain
`time.sleep`, not an `Event.wait`, so the sleep is not interruptible by
the stop event. -/
inductive PC where
  | check
  | update
  | sleep
  | done
  deriving DecidableEq, Repr

/-- One step of the loop under the current value of the stop flag.  The
flag is consulted only at `check`; the `update` and `sleep` steps run to
completion regardless of it. -/
def loop_step (stop : Bool) : PC → PC
  | PC.check => if stop then PC.done else PC.update
  | PC.update => PC.sleep
  | PC.sleep => PC.check
  | PC.done => PC.done

/-- Number of `update_all_data` executions (cache replaces) performed at
steps where the stop flag is already set, along a schedule of flag
values. -/
def updates_after_stop : PC → List Bool → Nat
  | _, [] => 0
  | pc, b :: bs =>
      (if pc = PC.update ∧ b = true then 1 else 0) +
        updates_after_stop (loop_step b pc) bs

/-- One step of the loop together with its effect on the manager state:
the `update` step performs a full `update_all_data`. -/
def loop_stepS {V : Type} (inp : CycleInput V) (t : Nat) (b : Bool) :
    PC × DMState V → PC × DMState V
  | (PC.check, s) => (if b then PC.done else PC.update, s)
  | (PC.update, s) => (PC.sleep, update_all_data s t inp)
  | (PC.sleep, s) => (PC.check, s)
  | (PC.done, s) => (PC.done, s)

/-- Run of the stateful loop along a schedule of stop-flag values. -/
def loop_runS {V : Type} (inp : CycleInput V) (t : Nat) :
    PC × DMState V → List Bool → PC × DMState V
  | st, [] => st
  | st, b :: bs => loop_runS inp t (loop_stepS inp t b st) bs

theorem uas_done (n : Nat) :
    updates_after_stop PC.done (List.replicate n true) = 0 := by
  induction n with
  | zero => rfl
  | succ m ih => simp [List.replicate_succ, updates_after_stop, loop_step, ih]

theorem uas_check (n : Nat) :
    updates_after_stop PC.check (List.replicate n true) = 0 := by
  cases n with
  | zero => rfl
  | succ m => simp [List.replicate_succ, updates_after_stop, loop_step, uas_done m]

theorem uas_sleep (n : Nat) :
    updates_after_stop PC.sleep (List.replicate n true) = 0 := by
  cases n with
  | zero => rfl
  | succ m => simp [List.replicate_succ, updates_after_stop, loop_step, uas_check m]

theorem uas_update (n : Nat) :
    updates_after_stop PC.update (List.replicate n true) ≤ 1 := by
  cases n with
  | zero => exact Nat.zero_le 1
  | succ m => simp [List.replicate_succ, updates_after_stop, loop_step, uas_sleep m]

/-- Claim C7, counterexample: a replace IS applied after the stop signal
is set.  Schedule: the flag is false at the first `check`, then set
permanently; the iteration already past its check still executes a full
`update_all_data` (the cache changes from the initial one to `ndA`), then
sleeps the full `REFRESH_INTERVAL` before the next check exits the
loop. -/
theorem c7_counterexample :
    (loop_runS inpA 9 (PC.check, s0) [false, true, true, true]).1 = PC.done ∧
    (loop_runS inpA 9 (PC.check, s0) [false, true, true, true]).2.cache = ndA ∧
    ndA ≠ s0.cache ∧
    updates_after_stop PC.check [false, true, true, true] = 1 := by
  refine ⟨by decide, by decide, by decide, by decide⟩

/-- Claim C7, amended: once the stop flag is set and stays set, at most
one further `update_all_data` (cache replace) executes — the iteration
whose stop check already passed — and from any point of the loop body the
loop reaches exit within three further steps: at most one update, one
full uninterruptible `REFRESH_INTERVAL` sleep, and one check.  Shutdown
latency is therefore bounded by one update plus one full refresh
interval, not by a backoff tick (the loop has no backoff and its sleep
takes no notice of the stop event). -/
theorem c7_stop_bounds (pc : PC) (n : Nat) :
    updates_after_stop pc (List.replicate n true) ≤ 1 ∧
    loop_step true (loop_step true (loop_step true pc)) = PC.done := by
  constructor
  · cases pc with
    | check => exact le_of_eq (uas_check n) |>.trans (by omega)
    | update => exact uas_update n
    | sleep => exact le_of_eq (uas_sleep n) |>.trans (by omega)
    | done => exact le_of_eq (uas_done n) |>.trans (by omega)
  · cases pc <;> rfl

/-- Modelled from the spec: the retry policy of section 4.2 — maximum
attempts per adapter and jittered backoff bounds.  No retry/fallback
routine exists under `src/` (the docstring of
`DataManager.fetch_market_data` announces "with retries" but the body
retries nothing), so the Resilient Fetch operation is modelled from the
specification text. -/
structure RetryPolicy where
  max_attempts : Nat
  min_delay : Nat
  max_delay : Nat

/-- Modelled from the spec: attempt one adapter up to `fuel` times,
starting at attempt index `i`; an adapter is the sequence of outcomes of
its successive attempts.  Returns the first success or the last error,
together with the number of attempts made.  The jittered sleeps between
attempts affect timing only, not the result or the count. -/
def run_attempts {V : Type} (a : Nat → Except String V) :
    Nat → Nat → Except String V × Nat
  | _, 0 => (Except.error "no attempts", 0)
  | i, 1 => (a i, 1)
  | i, k + 2 =>
      match a i with
      | Except.ok v => (Except.ok v, 1)
      | Except.error _ =>
          ((run_attempts a (i + 1) (k + 1)).1,
           (run_attempts a (i + 1) (k + 1)).2 + 1)

/-- Modelled from the spec: exhaust a chain of adapters in order, each
one attempted `maxA` times with the attempt counter reset, moving to the
next adapter only after the previous is exhausted; the total attempt
count is accumulated. -/
def fetch_chain {V : Type} : List (Nat → Except String V) → Nat →
    Except String V × Nat
  | [], _ => (Except.error "all adapters exhausted", 0)
  | a :: rest, maxA =>
      match run_attempts a 0 maxA with
      | (Except.ok v, c) => (Except.ok v, c)
      | (Except.error e, c) =>
          match rest with
          | [] => (Except.error e, c)
          | b :: rs =>
              let r := fetch_chain (b :: rs) maxA
              (r.1, c + r.2)

/-- Modelled from the spec: section 4.2's
`fetch(target, primary_adapter, fallback_adapters, retry_policy)`:
primary first, then each fallback in order; an error result is the
`FetchFailure` value (returned, never raised). -/
def resilient_fetch {V : Type} (primary : Nat → Except String V)
    (fallbacks : List (Nat → Except String V)) (policy : RetryPolicy) :
    Except String V × Nat :=
  fetch_chain (primary :: fallbacks) policy.max_attempts

/-- Modelled from the spec: the Snapshot Cache path a fetch result is fed
to (sections 4.2 and 4.3) — a success replaces the entry for the key, a
`FetchFailure` must not overwrite it. -/
def apply_fetch_result {α : Type} (c : List (String × Option α)) (k : String)
    (r : Except String α) : List (String × Option α) :=
  match r with
  | Except.ok v => c.map fun p => if p.1 == k then (p.1, some v) else p
  | Except.error _ => c

theorem run_attempts_two {V : Type} (a : Nat → Except String V) (i k : Nat) :
    run_attempts a i (k + 2) =
      match a i with
      | Except.ok v => (Except.ok v, 1)
      | Except.error _ =>
          ((run_attempts a (i + 1) (k + 1)).1,
           (run_attempts a (i + 1) (k + 1)).2 + 1) := rfl

theorem run_attempts_all_fail {V : Type} (a : Nat → Except String V)
    (hf : ∀ i, ∃ e, a i = Except.error e) :
    ∀ (n i : Nat), (run_attempts a i n).2 = n ∧
      ∃ e, (run_attempts a i n).1 = Except.error e := by
  intro n
  induction n with
  | zero => intro i; exact ⟨rfl, "no attempts", rfl⟩
  | succ m ih =>
      intro i
      rcases hf i with ⟨e, he⟩
      cases m with
      | zero =>
          have h1 : run_attempts a i 1 = (a i, 1) := rfl
          rw [h1, he]
          exact ⟨rfl, e, rfl⟩
      | succ k =>
          rcases ih (i + 1) with ⟨hc, e2, he2⟩
          have h2 : run_attempts a i (k + 2) =
              ((run_attempts a (i + 1) (k + 1)).1,
               (run_attempts a (i + 1) (k + 1)).2 + 1) := by
            rw [run_attempts_two, he]
          rw [h2]
          exact ⟨by rw [hc], e2, he2⟩

theorem fetch_chain_err_nil {V : Type} (a : Nat → Except String V) (maxA : Nat)
    (e : String) (c : Nat) (h : run_attempts a 0 maxA = (Except.error e, c)) :
    fetch_chain [a] maxA = (Except.error e, c) := by
  unfold fetch_chain
  rw [h]

theorem fetch_chain_err_cons {V : Type} (a b : Nat → Except String V)
    (rs : List (Nat → Except String V)) (maxA : Nat) (e : String) (c : Nat)
    (h : run_attempts a 0 maxA = (Except.error e, c)) :
    fetch_chain (a :: b :: rs) maxA =
      ((fetch_chain (b :: rs) maxA).1, c + (fetch_chain (b :: rs) maxA).2) := by
  conv_lhs => unfold fetch_chain
  rw [h]

theorem fetch_chain_all_fail {V : Type} (maxA : Nat) :
    ∀ (adapters : List (Nat → Except String V)),
      (∀ a ∈ adapters, ∀ i, ∃ e, a i = Except.error e) →
      (fetch_chain adapters maxA).2 = maxA * adapters.length ∧
      ∃ e, (fetch_chain adapters maxA).1 = Except.error e := by
  intro adapters
  induction adapters with
  | nil =>
      intro h
      exact ⟨by simp [fetch_chain], "all adapters exhausted", rfl⟩
  | cons a rest ih =>
      intro h
      have ha : ∀ i, ∃ e, a i = Except.error e := h a (List.mem_cons_self a rest)
      rcases run_attempts_all_fail a ha maxA 0 with ⟨hc, e, he⟩
      have hra : run_attempts a 0 maxA = (Except.error e, maxA) := by
        cases hr : run_attempts a 0 maxA with
        | mk r1 r2 =>
            rw [hr] at hc he
            simp only at hc he
            rw [hc, he]
      cases rest with
      | nil =>
          rw [fetch_chain_err_nil a maxA e maxA hra]
          exact ⟨by simp, e, rfl⟩
      | cons b rs =>
          have hrest : ∀ x ∈ b :: rs, ∀ i, ∃ e2, x i = Except.error e2 :=
            fun x hx => h x (List.mem_cons_of_mem a hx)
          rcases ih hrest with ⟨hc2, e2, he2⟩
          rw [fetch_chain_err_cons a b rs maxA e maxA hra]
          constructor
          · show maxA + (fetch_chain (b :: rs) maxA).2 = _
            rw [hc2]
            simp only [List.length_cons, Nat.succ_eq_add_one]
            ring
          · exact ⟨e2, he2⟩

/-- Claim C3 (confirmed, modelled from the spec): when every adapter —
primary and each fallback — fails on every attempt, Resilient Fetch
returns a `FetchFailure` value (an error result, never a raised
exception) after exactly `max_attempts * (1 + fallbacks.length)` total
attempts, and feeding that failure to the Snapshot Cache leaves the
entry for the target key unchanged. -/
theorem c3_all_fail_returns_failure {V : Type}
    (primary : Nat → Except String V)
    (fallbacks : List (Nat → Except String V)) (policy : RetryPolicy)
    (hf : ∀ a ∈ primary :: fallbacks, ∀ i, ∃ e, a i = Except.error e) :
    (resilient_fetch primary fallbacks policy).2
        = policy.max_attempts * (1 + fallbacks.length) ∧
    (∃ e, (resilient_fetch primary fallbacks policy).1 = Except.error e) ∧
    ∀ (c : List (String × Option V)) (k : String),
      apply_fetch_result c k (resilient_fetch primary fallbacks policy).1 = c := by
  rcases fetch_chain_all_fail policy.max_attempts (primary :: fallbacks) hf with
    ⟨hc, e, he⟩
  refine ⟨?_, ⟨e, he⟩, ?_⟩
  · show (fetch_chain (primary :: fallbacks) policy.max_attempts).2 = _
    rw [hc]
    simp only [List.length_cons, Nat.succ_eq_add_one]
    ring
  · intro c k
    show apply_fetch_result c k
      (fetch_chain (primary :: fallbacks) policy.max_attempts).1 = c
    rw [he]
    rfl

/-- An adapter that is down on every attempt. -/
def failA : Nat → Except String Nat := fun _ => Except.error "down"

/-- A retry policy with three attempts per adapter and backoff drawn
from the interval 1 to 5. -/
def polC3 : RetryPolicy := ⟨3, 1, 5⟩

/-- Claim C3, witness: a failing primary with one failing fallback under
three attempts makes exactly 3 times 2 = 6 attempts and leaves a
concrete cache entry untouched. -/
theorem c3_witness :
    (resilient_fetch failA [failA] polC3).2
        = polC3.max_attempts * (1 + [failA].length) ∧
    (resilient_fetch failA [failA] polC3).2 = 6 ∧
    apply_fetch_result [("rates", some 5)] "rates"
        (resilient_fetch failA [failA] polC3).1 = [("rates", some 5)] := by
  have hf : ∀ a ∈ failA :: [failA], ∀ i, ∃ e, a i = Except.error e := by
    intro a ha i
    rcases List.mem_cons.mp ha with rfl | hb
    · exact ⟨"down", rfl⟩
    · rcases List.mem_cons.mp hb with rfl | hcontra
      · exact ⟨"down", rfl⟩
      · exact absurd hcontra (List.not_mem_nil a)
  have h := c3_all_fail_returns_failure failA [failA] polC3 hf
  exact ⟨h.1, by decide, h.2.2 [("rates", some 5)] "rates"⟩

/-- The names bound at module level in `src/app.py` when `DataManager`
is constructed: line 10 reads `from threading import Thread`, binding
only `Thread`, never `threading` itself. -/
def app_module_names : List String :=
  ["st", "pd", "np", "yf", "Fred", "px", "go", "datetime", "time", "Thread",
   "queue", "requests", "pytz", "relativedelta", "AgGrid",
   "GridOptionsBuilder", "warnings", "fred", "TIME_ZONE", "REFRESH_INTERVAL"]

/-- The names bound at module level in `src/app1.py`: line 9 reads
`import threading`, binding `threading`. -/
def app1_module_names : List String :=
  ["st", "pd", "np", "yf", "Fred", "go", "datetime", "time", "threading",
   "pytz", "relativedelta", "warnings", "AGGRID_AVAILABLE", "AgGrid",
   "GridOptionsBuilder", "fred", "TIME_ZONE", "REFRESH_INTERVAL"]

/-- Embeds `DataManager.__init__` (`src/app.py` lines 113-125, `src/app1.py`
lines 69-80): its first statement evaluates `threading.Lock()`, which
resolves the name `threading` in the enclosing module namespace;
if the name is unbound the constructor raises `NameError` before the
cache dict is ever created, otherwise it builds the all-`None` cache. -/
def dataManager_init {V : Type} (env : List String) (c : Cache V) :
    Except String (Cache V) :=
  if env.contains "threading" then Except.ok c
  else Except.error "NameError: name threading is not defined"

/-- Claim C8 (code bug): in `src/app.py`, constructing the cache does
NOT succeed — `self.data_lock = threading.Lock()` raises `NameError`
because line 10 imports only `Thread` from `threading`.  In the
near-duplicate `src/app1.py`, which does `import threading`,
construction succeeds and yields the cache with every configured
dataset key present and in the Empty (`None`) state. -/
theorem c8_init_raises_in_app :
    dataManager_init app_module_names (@init_cache Nat)
      = Except.error "NameError: name threading is not defined" ∧
    dataManager_init app1_module_names (@init_cache_app1 Nat)
      = Except.ok (@init_cache_app1 Nat) ∧
    (@init_cache_app1 Nat).map Prod.fst
      = ["market", "economic", "rates", "commodities", "risk", "news"] ∧
    ((@init_cache_app1 Nat).all fun p => decide (p.2 = none)) = true ∧
    (@init_cache Nat).map Prod.fst
      = ["market", "economic", "rates", "commodities", "risk", "sentiment",
         "news"] ∧
    ((@init_cache Nat).all fun p => decide (p.2 = none)) = true := by
  refine ⟨rfl, rfl, by decide, by decide, by decide, by decide⟩

/-- Embeds `first_valid_index` followed by the value at it, for one dataframe
column (`src/sp500_nasdaq_comparison.py` line 53 and the indexing on
line 54): the first non-null entry of the column, if any. -/
def first_valid : List (Option ℚ) → Option ℚ
  | [] => none
  | none :: rest => first_valid rest
  | some v :: _ => some v

/-- The per-column body of `robust_normalize`
(`src/sp500_nasdaq_comparison.py` lines 52-55): if the column has a
first valid value and it is nonzero, divide the whole column by it and
multiply by 100; otherwise leave the column unchanged.  Nulls pass
through `Option.map` untouched, as NaN passes through pandas arithmetic. -/
def normalize_col (c : List (Option ℚ)) : List (Option ℚ) :=
  match first_valid c with
  | none => c
  | some v => if v ≠ 0 then c.map (Option.map fun y => y / v * 100) else c

/-- Embeds `robust_normalize` (`src/sp500_nasdaq_comparison.py` lines 49-56):
normalize every column of the dataframe by its own first valid value. -/
def robust_normalize (df : List (List (Option ℚ))) : List (List (Option ℚ)) :=
  df.map normalize_col

theorem first_valid_map (f : ℚ → ℚ) :
    ∀ c, first_valid (c.map (Option.map f)) = Option.map f (first_valid c) := by
  intro c
  induction c with
  | nil => rfl
  | cons o rest ih =>
      cases o with
      | none => exact ih
      | some v => rfl

theorem normalize_col_first_valid {c : List (Option ℚ)} {v : ℚ}
    (hfv : first_valid c = some v) (hv : v ≠ 0) :
    first_valid (normalize_col c) = some 100 := by
  have h1 : normalize_col c = c.map (Option.map fun y => y / v * 100) := by
    simp [normalize_col, hfv, hv]
  rw [h1, first_valid_map, hfv]
  show some (v / v * 100) = some 100
  rw [div_self hv, one_mul]

theorem normalize_col_idem (c : List (Option ℚ)) :
    normalize_col (normalize_col c) = normalize_col c := by
  cases hfv : first_valid c with
  | none =>
      have h1 : normalize_col c = c := by simp [normalize_col, hfv]
      rw [h1, h1]
  | some v =>
      by_cases hv : v = 0
      · have h1 : normalize_col c = c := by simp [normalize_col, hfv, hv]
        rw [h1, h1]
      · have h1 : normalize_col c = c.map (Option.map fun y => y / v * 100) := by
          simp [normalize_col, hfv, hv]
        have h2 : first_valid (normalize_col c) = some 100 :=
          normalize_col_first_valid hfv hv
        have h100 : (100 : ℚ) ≠ 0 := by norm_num
        have h3 : normalize_col (normalize_col c) =
            (normalize_col c).map (Option.map fun y => y / 100 * 100) := by
          generalize hd : normalize_col c = d at h2
          show normalize_col d = d.map (Option.map fun y => y / 100 * 100)
          unfold normalize_col
          rw [h2]
          simp [h100]
        rw [h3, h1, List.map_map]
        apply List.map_congr_left
        intro o _
        cases o with
        | none => rfl
        | some y =>
            show some (y / v * 100 / 100 * 100) = some (y / v * 100)
            rw [div_mul_cancel₀ _ h100]

/-- Claim C9 (confirmed): `robust_normalize` is idempotent — applying it
twice equals applying it once.  A column whose first valid value `v` is
nonzero is rescaled so its first valid entry becomes 100 (so a second
pass divides and multiplies by 100, the identity); a column whose first
valid value is zero or missing passes through unchanged.  Arithmetic is
modelled exactly (rationals in place of IEEE floats). -/
theorem c9_robust_normalize_idempotent :
    (∀ df, robust_normalize (robust_normalize df) = robust_normalize df) ∧
    (∀ (c : List (Option ℚ)) (v : ℚ), first_valid c = some v → v ≠ 0 →
        first_valid (normalize_col c) = some 100) ∧
    (∀ c, first_valid c = none → normalize_col c = c) ∧
    (∀ c, first_valid c = some 0 → normalize_col c = c) := by
  refine ⟨?_, ?_, ?_, ?_⟩
  · intro df
    show (df.map normalize_col).map normalize_col = df.map normalize_col
    rw [List.map_map]
    apply List.map_congr_left
    intro c _
    exact normalize_col_idem c
  · intro c v hfv hv
    exact normalize_col_first_valid hfv hv
  · intro c h
    simp [normalize_col, h]
  · intro c h
    simp [normalize_col, h]

/-- Claim C9, witness: a concrete two-column frame (one column scaled by
its first value 4, one all-null column) is a fixed point after one
pass. -/
theorem c9_witness :
    robust_normalize (robust_normalize [[some 4, none, some 2], [none]])
      = robust_normalize [[some 4, none, some 2], [none]] ∧
    first_valid (normalize_col [some 4, none, some 2]) = some 100 :=
  ⟨c9_robust_normalize_idempotent.1 [[some 4, none, some 2], [none]],
   c9_robust_normalize_idempotent.2.1 [some 4, none, some 2] 4 rfl
     (by norm_num)⟩

/-- The guard of the performance-metrics block
(`src/sp500_nasdaq_comparison1.py` line 41):
`if show_metrics and len(df) > 1 and available_indices:`. -/
def metrics_block_runs (show_metrics : Bool) (nrows : Nat)
    (available : List String) : Bool :=
  show_metrics && decide (1 < nrows) && !available.isEmpty

/-- Embeds `years` (`src/sp500_nasdaq_comparison1.py` line 47):
`days / 365.25 if days > 0 else 1`, with 365.25 written as the exact
rational 1461/4; `days` is the integer day count of the window, which
can be zero or negative. -/
def metrics_years (days : Int) : ℚ :=
  if 0 < days then (days : ℚ) / (1461 / 4) else 1

/-- Embeds `annualized_returns` (`src/sp500_nasdaq_comparison1.py` line 48):
`((end_values / start_values) ** (1 / years) - 1) * 100 if years > 0
else None`.  The real-power operation `**` is abstracted as a parameter
`pw`; `ratio` is `end_values / start_values`. -/
def annualized_returns_value (pw : ℚ → ℚ → ℚ) (ratio : ℚ) (days : Int) :
    Option ℚ :=
  if 0 < metrics_years days then
    some ((pw ratio (1 / metrics_years days) - 1) * 100)
  else none

/-- Claim C10 (confirmed): whenever the performance-metrics block runs,
`years` is strictly positive — equal to `days/365.25` when the window
spans a positive number of days and 1 otherwise — so the exponent
`1/years` never divides by zero and the `None` branch of the
`annualized_returns` conditional is unreachable. -/
theorem c10_years_positive (sm : Bool) (nrows : Nat) (avail : List String)
    (days : Int) (pw : ℚ → ℚ → ℚ) (ratio : ℚ)
    (_hrun : metrics_block_runs sm nrows avail = true) :
    0 < metrics_years days ∧
    (0 < days → metrics_years days = (days : ℚ) / (1461 / 4)) ∧
    (days ≤ 0 → metrics_years days = 1) ∧
    annualized_returns_value pw ratio days
      = some ((pw ratio (1 / metrics_years days) - 1) * 100) := by
  have hy : 0 < metrics_years days := by
    unfold metrics_years
    by_cases hd : 0 < days
    · rw [if_pos hd]
      have hdq : (0 : ℚ) < (days : ℚ) := by exact_mod_cast hd
      positivity
    · rw [if_neg hd]
      exact one_pos
  refine ⟨hy, ?_, ?_, ?_⟩
  · intro hd
    simp [metrics_years, hd]
  · intro hd
    simp [metrics_years, not_lt.mpr hd]
  · simp [annualized_returns_value, hy]

/-- Claim C10, witness: a ten-day window under an enabled metrics block
yields positive `years` and a `some` annualized return. -/
theorem c10_witness :
    0 < metrics_years 10 ∧
    annualized_returns_value (fun a _ => a) 2 10
      = some (((fun (a : ℚ) (_ : ℚ) => a) 2 (1 / metrics_years 10) - 1) * 100) :=
  ⟨(c10_years_positive true 2 ["SP500"] 10 (fun a _ => a) 2 (by decide)).1,
   (c10_years_positive true 2 ["SP500"] 10 (fun a _ => a) 2 (by decide)).2.2.2⟩
